import Mathlib

/-!
# Verification development for the bytebase SQL review excerpt

Shallow embedding of

* `backend/plugin/advisor/mssql/advisor_table_drop_naming_convention.go`
  (the MSSQL "table drop naming convention" advisor: `Check`, the listener
  `tableDropNamingConventionChecker`, `generateAdvice`, `EnterDrop_table`),
* `backend/store/stage.go` (`CreateStageV2`, the part that builds the INSERT),
* `getExcelColumnName`, of which only the test
  `backend/api/v1/sql_service_test.go` is available.

Go values are modelled as follows: `int` is `Int` (`Nat` for loop indices),
`string` is `String`, a slice is a `List`, a `(value, error)` return is an
`Except` whose error carries the message, and a listener that mutates its
receiver is a function from the old receiver to the new one.
-/

namespace Bytebase

/-! ## Advisor data model (package `advisor`) -/

/-- Go `error`, identified with its message. -/
abbrev Error := String

/-- Values of `advisor.Status`; the spec lists success, info, warning, error. -/
inductive Status where
  | Success
  | Info
  | Warn
  | Error
  deriving DecidableEq, Repr

/-- Values of `advisor.Code` used by this advisor: `advisor.Ok` and
`advisor.TableDropNamingConventionMismatch`, two distinct enum constants. -/
inductive Code where
  | Ok
  | TableDropNamingConventionMismatch
  deriving DecidableEq, Repr

/-- Values of `advisor.SQLReviewRuleLevel`; the spec lists disabled, info,
warning, error. -/
inductive SQLReviewRuleLevel where
  | Disabled
  | Info
  | Warning
  | Error
  deriving DecidableEq, Repr

/-- Struct `advisor.Advice`, with the fields the advisor sets. `Line` is a Go
`int` whose zero value is `0`. -/
structure Advice where
  Status : Status
  Code : Code
  Title : String
  Content : String
  Line : Int := 0
  deriving DecidableEq, Repr

/-- The rule of an `advisor.Context`: `Rule.Type`, `Rule.Level`, `Rule.Payload`. -/
structure SQLReviewRule where
  RuleType : String
  Level : SQLReviewRuleLevel
  Payload : String
  deriving DecidableEq, Repr

/-! ## Parse tree (packages `antlr` and `tsql-parser`) -/

/-- An `parser.IId_Context` node as far as the advisor reads it: its text and
the line of its start token, `GetStart().GetLine()`. -/
structure Id_Context where
  text : String
  line : Int
  deriving DecidableEq, Repr

/-- An `antlr.Tree`. `Drop_table` is a `*parser.Drop_tableContext`,
`Table_name` a `*parser.Table_nameContext` with its labelled child `table`
(`nil` is `none`), `RuleNode` any other rule context. -/
inductive Tree where
  | ErrorNode : Tree
  | TerminalNode : Tree
  | Drop_table (children : List Tree) : Tree
  | Table_name (table : Option Id_Context) (children : List Tree) : Tree
  | RuleNode (children : List Tree) : Tree
  deriving Repr

/-- The dynamic value held in `ctx.AST`, of Go type `any`: either an
`antlr.Tree` or a value of some other type. -/
inductive AST where
  | tree (t : Tree)
  | other
  deriving Repr

/-- Struct `advisor.Context`, with the fields `Check` reads. -/
structure Context where
  AST : AST
  Rule : SQLReviewRule
  deriving Repr

/-- A compiled `*regexp.Regexp`: the expression it was compiled from, which is
what its `String()` method prints, and its `MatchString` method. -/
structure Regexp where
  expr : String
  MatchString : String → Bool

/-- The functions `Check` and the listener call that live outside the file:
`advisor.NewStatusBySQLReviewRuleLevel`,
`advisor.UnmarshalNamingRulePayloadAsRegexp` (its first and third results),
`bbparser.NormalizeTSQLIdentifier`, and the quoting `fmt` applies for the
verb `%q`. -/
structure Deps where
  NewStatusBySQLReviewRuleLevel : SQLReviewRuleLevel → Except Error Status
  UnmarshalNamingRulePayloadAsRegexp : String → Except Error Regexp
  NormalizeTSQLIdentifier : Id_Context → String
  quote : String → String

/-! ## The listener -/

/-- Struct `tableDropNamingConventionChecker`. -/
structure tableDropNamingConventionChecker where
  level : Status
  title : String
  format : Regexp
  adviceList : List Advice

/-- Method `generateAdvice`: the advice list it returns (with a `nil` error)
and the receiver after the call. -/
def generateAdvice (l : tableDropNamingConventionChecker) :
    Except Error (List Advice) × tableDropNamingConventionChecker :=
  let l1 :=
    if l.adviceList.length = 0 then
      { l with adviceList := l.adviceList ++
          [{ Status := Status.Success, Code := Code.Ok, Title := "OK", Content := "" }] }
    else l
  (.ok l1.adviceList, l1)

/-- Method `Drop_tableContext.AllTable_name`: the children of the node that
are table-name contexts, in order. -/
def AllTable_name (children : List Tree) : List Tree :=
  children.filter fun c =>
    match c with
    | .Table_name _ _ => true
    | _ => false

/-- Method `Table_nameContext.GetTable`. -/
def GetTable : Tree → Option Id_Context
  | .Table_name table _ => table
  | _ => none

/-- One iteration of the loop of `EnterDrop_table`. -/
def EnterDrop_table.body (d : Deps) (l : tableDropNamingConventionChecker)
    (tableName : Tree) : tableDropNamingConventionChecker :=
  match GetTable tableName with
  | none => l
  | some table =>
    let normalizedTableName := d.NormalizeTSQLIdentifier table
    if !l.format.MatchString normalizedTableName then
      { l with adviceList := l.adviceList ++
          [{ Status := l.level
             Code := Code.TableDropNamingConventionMismatch
             Title := l.title
             Content := "[" ++ normalizedTableName ++
               "] mismatches drop table naming convention, naming format should be " ++
               d.quote l.format.expr
             Line := table.line }] }
    else l

/-- Method `EnterDrop_table`, on the children of the `Drop_tableContext`. -/
def EnterDrop_table (d : Deps) (l : tableDropNamingConventionChecker)
    (ctx : List Tree) : tableDropNamingConventionChecker :=
  (AllTable_name ctx).foldl (EnterDrop_table.body d) l

mutual
/-- Method `ParseTreeWalker.Walk` with the checker as listener: error and
terminal nodes reach the no-op `VisitErrorNode` and `VisitTerminal`; a rule
node is entered (only `Drop_tableContext` has a handler that is not the
embedded no-op), its children are walked in order, and it is exited (no-op). -/
def Walk (d : Deps) (l : tableDropNamingConventionChecker) :
    Tree → tableDropNamingConventionChecker
  | .ErrorNode => l
  | .TerminalNode => l
  | .Drop_table children => walkChildren d (EnterDrop_table d l children) children
  | .Table_name _ children => walkChildren d l children
  | .RuleNode children => walkChildren d l children
/-- The loop of `Walk` over the children of a rule node. -/
def walkChildren (d : Deps) (l : tableDropNamingConventionChecker) :
    List Tree → tableDropNamingConventionChecker
  | [] => l
  | child :: rest => walkChildren d (Walk d l child) rest
end

/-- Method `TableDropNamingConventionAdvisor.Check`; the statement text is
ignored by the code and left out. -/
def Check (d : Deps) (ctx : Context) : Except Error (List Advice) :=
  match ctx.AST with
  | .other => .error "failed to convert to Tree"
  | .tree tree =>
    match d.NewStatusBySQLReviewRuleLevel ctx.Rule.Level with
    | .error err => .error err
    | .ok level =>
      match d.UnmarshalNamingRulePayloadAsRegexp ctx.Rule.Payload with
      | .error err => .error err
      | .ok format =>
        let listener : tableDropNamingConventionChecker :=
          { level := level, title := ctx.Rule.RuleType, format := format, adviceList := [] }
        (generateAdvice (Walk d listener tree)).1

/-! ## Statements about the walk -/

/-- The identifiers a DROP TABLE node names: the table identifiers of its
table-name children that are present, in order. -/
def namedIdentifiers (children : List Tree) : List Id_Context :=
  children.filterMap fun c =>
    match c with
    | .Table_name (some table) _ => some table
    | _ => none

mutual
/-- The table identifiers named by the DROP TABLE nodes of a tree, in document
order: nodes in the order the walk enters them, the identifiers of one node
in the order it lists them. -/
def dropTableIdentifiers : Tree → List Id_Context
  | .ErrorNode => []
  | .TerminalNode => []
  | .Drop_table children => namedIdentifiers children ++ dropTableIdentifiersList children
  | .Table_name _ children => dropTableIdentifiersList children
  | .RuleNode children => dropTableIdentifiersList children
/-- The identifiers of a list of sibling trees, left to right. -/
def dropTableIdentifiersList : List Tree → List Id_Context
  | [] => []
  | child :: rest => dropTableIdentifiers child ++ dropTableIdentifiersList rest
end

/-- An identifier offends when its normalized name does not match the pattern. -/
def offends (d : Deps) (format : Regexp) (table : Id_Context) : Bool :=
  !format.MatchString (d.NormalizeTSQLIdentifier table)

/-- The offending identifiers of a tree, in document order. -/
def offendingIdentifiers (d : Deps) (format : Regexp) (tree : Tree) : List Id_Context :=
  (dropTableIdentifiers tree).filter (offends d format)

/-- The advice entry the spec describes for an offending identifier. -/
def mismatchAdvice (d : Deps) (level : Status) (title : String) (format : Regexp)
    (table : Id_Context) : Advice :=
  { Status := level
    Code := Code.TableDropNamingConventionMismatch
    Title := title
    Content := "[" ++ d.NormalizeTSQLIdentifier table ++
      "] mismatches drop table naming convention, naming format should be " ++
      d.quote format.expr
    Line := table.line }

/-- The synthetic success entry. -/
def successAdvice : Advice :=
  { Status := Status.Success, Code := Code.Ok, Title := "OK", Content := "", Line := 0 }

/-! ## A concrete scenario: `DROP TABLE orders, tbl_archive;` -/

/-- A pattern requiring the prefix `tbl_`. -/
def tblFormat : Regexp :=
  { expr := "^tbl_"
    MatchString := fun s => decide (s.toList.take 4 = ['t', 'b', 'l', '_']) }

/-- An instance of the external functions for the scenarios: the level decoder
accepts warning and error only, the payload decoder knows the pattern
`^tbl_`, normalization lower-cases the text of the identifier, and quoting
wraps a text in double quotes. -/
def scenarioDeps : Deps :=
  { NewStatusBySQLReviewRuleLevel := fun level =>
      match level with
      | .Error => .ok Status.Error
      | .Warning => .ok Status.Warn
      | _ => .error "unexpected rule level type"
    UnmarshalNamingRulePayloadAsRegexp := fun payload =>
      if payload = "^tbl_" then .ok tblFormat else .error "invalid naming rule payload"
    NormalizeTSQLIdentifier := fun table => String.mk (table.text.toList.map Char.toLower)
    quote := fun s => "\"" ++ s ++ "\"" }

/-- The identifier `orders` on line 1. -/
def ordersId : Id_Context := { text := "orders", line := 1 }

/-- The identifier `tbl_archive` on line 1. -/
def tblArchiveId : Id_Context := { text := "tbl_archive", line := 1 }

/-- The parse tree of `DROP TABLE orders, tbl_archive;`: a batch holding one
DROP TABLE node with the keywords, two table names separated by a comma, and
the semicolon. -/
def dropOrdersTree : Tree :=
  .RuleNode [.RuleNode [.RuleNode [.Drop_table
    [.TerminalNode, .TerminalNode,
     .Table_name (some ordersId) [.RuleNode [.TerminalNode]],
     .TerminalNode,
     .Table_name (some tblArchiveId) [.RuleNode [.TerminalNode]],
     .TerminalNode]]], .TerminalNode]

/-- The naming rule of the scenario at a given level. -/
def scenarioRule (level : SQLReviewRuleLevel) : SQLReviewRule :=
  { RuleType := "naming.table.drop", Level := level, Payload := "^tbl_" }

/-! ## `CreateStageV2` (package `store`) -/

/-- Struct `StageMessage`. -/
structure StageMessage where
  Name : String
  EnvironmentID : Int
  PipelineID : Int
  ID : Int
  deriving DecidableEq, Repr

/-- A query argument, an element of `values []interface{}`: the loop appends
Go `int`s and `string`s. -/
inductive Value where
  | int (n : Int)
  | string (s : String)
  deriving DecidableEq, Repr

/-- The constant `count` of the loop. -/
def count : Nat := 5

/-- Call `fmt.Sprintf("($%d,$%d,$%d,$%d,$%d)", a, b, c, e, f)` on indices,
which are not negative, so that `%d` prints their decimal digits. -/
def valueTuple (a b c e f : Nat) : String :=
  "($" ++ toString a ++ ",$" ++ toString b ++ ",$" ++ toString c ++ ",$" ++ toString e ++
    ",$" ++ toString f ++ ")"

/-- The loop of `CreateStageV2` over `stagesCreate` from index `i` on, with
the slices `valueStr` and `values` built so far. The entries of
`stagesCreate` are pointers in the source and are taken to be non-nil. -/
def CreateStageV2.loop (creatorID : Int) :
    Nat → List StageMessage → List String × List Value → List String × List Value
  | _, [], acc => acc
  | i, create :: rest, (valueStr, values) =>
    CreateStageV2.loop creatorID (i + 1) rest
      (valueStr ++ [valueTuple (i * count + 1) (i * count + 2) (i * count + 3)
          (i * count + 4) (i * count + 5)],
       values ++ [Value.int creatorID, Value.int creatorID, Value.int create.PipelineID,
          Value.int create.EnvironmentID, Value.string create.Name])

/-- The text of the query before the verb `%s`. -/
def queryHead : String :=
  "\n    WITH inserted AS (\n\t  \tINSERT INTO stage (\n\t  \t\tcreator_id,\n\t  \t\tupdater_id,\n\t  \t\tpipeline_id,\n\t  \t\tenvironment_id,\n\t  \t\tname\n\t  \t) VALUES "

/-- The text of the query after the verb `%s`. -/
def queryTail : String :=
  "\n\t  \tRETURNING id, pipeline_id, environment_id, name\n    ) SELECT * FROM inserted ORDER BY id ASC\n    "

/-- What `CreateStageV2` hands to `tx.QueryContext`: the query text and the
arguments. The slices start `nil`; the transaction and the scan of the rows
are outside the model. -/
def CreateStageV2.query (stagesCreate : List StageMessage) (creatorID : Int) :
    String × List Value :=
  let r := CreateStageV2.loop creatorID 0 stagesCreate ([], [])
  (queryHead ++ ",".intercalate r.1 ++ queryTail, r.2)

/-- The value tuples `valueStr` that `CreateStageV2` joins. -/
def CreateStageV2.valueStr (stagesCreate : List StageMessage) (creatorID : Int) : List String :=
  (CreateStageV2.loop creatorID 0 stagesCreate ([], [])).1

/-- The placeholder numbers written into the tuple of stage `i`. -/
def placeholderNumbers (i : Nat) : List Nat :=
  [5 * i + 1, 5 * i + 2, 5 * i + 3, 5 * i + 4, 5 * i + 5]

/-- A tuple of placeholders: `$k` for each number, joined by commas, in
parentheses. -/
def placeholderTuple (numbers : List Nat) : String :=
  "(" ++ ",".intercalate (numbers.map fun k => "$" ++ toString k) ++ ")"

/-- The value `CreateStageV2` means for a column of table `stage`, by the
name of the column: the creator for `creator_id` and `updater_id`, and the
field of the stage for `pipeline_id`, `environment_id` and `name`. -/
def columnValue (creatorID : Int) (create : StageMessage) (column : String) : Option Value :=
  if column = "creator_id" then some (Value.int creatorID)
  else if column = "updater_id" then some (Value.int creatorID)
  else if column = "pipeline_id" then some (Value.int create.PipelineID)
  else if column = "environment_id" then some (Value.int create.EnvironmentID)
  else if column = "name" then some (Value.string create.Name)
  else none

/-! ## `getExcelColumnName` (package `v1`) -/

/-- Modelled from the spec: the constant `excelMaxColumn` is not in the
available sources; it is the number of column names of at most three letters,
`26 + 26^2 + 26^3`, so that `excelMaxColumn - 1` is the index of `ZZZ`. -/
def excelMaxColumn : Nat := 18278

/-- Modelled from the spec: the letter of a digit `0..25`, `A` for `0` up to
`Z` for `25`; the letter table of the function is not in the available
sources. -/
def excelLetter (r : Nat) : Char := Char.ofNat (65 + r)

/-- Modelled from the spec: the letters of the bijective base-26 numeral of a
zero-based index; the last letter is the remainder modulo 26 and the letters
before it name `index / 26 - 1`. -/
def excelColumnLetters (index : Nat) : List Char :=
  if index < 26 then [excelLetter index]
  else excelColumnLetters (index / 26 - 1) ++ [excelLetter (index % 26)]
termination_by index
decreasing_by omega

/-- Modelled from the spec: `getExcelColumnName` itself is not in the available
sources, only its test is. It returns the column name of a zero-based index
below `excelMaxColumn` and an error from `excelMaxColumn` on. -/
def getExcelColumnName (index : Nat) : Except Error String :=
  if index ≥ excelMaxColumn then .error "index out of range"
  else .ok (String.mk (excelColumnLetters index))

/-- The value of a letter as a bijective base-26 digit: `A` is 1, `Z` is 26. -/
def excelLetterValue (c : Char) : Nat := c.toNat - 64

/-- The number a bijective base-26 numeral denotes, most significant letter
first. -/
def excelNumeralValue (letters : List Char) : Nat :=
  letters.foldl (fun acc c => acc * 26 + excelLetterValue c) 0

theorem EnterDrop_table_eq (d : Deps) (level : Status) (title : String) (format : Regexp) :
    ∀ (ctx : List Tree) (advs : List Advice),
      EnterDrop_table d ⟨level, title, format, advs⟩ ctx =
        ⟨level, title, format,
          advs ++ ((namedIdentifiers ctx).filter (offends d format)).map
            (mismatchAdvice d level title format)⟩ := by
  intro ctx
  induction ctx with
  | nil => intro advs; simp [EnterDrop_table, AllTable_name, namedIdentifiers]
  | cons c rest ih =>
    intro advs
    have hrest := ih
    unfold EnterDrop_table at hrest ⊢
    cases c with
    | ErrorNode => simpa [AllTable_name, namedIdentifiers] using hrest advs
    | TerminalNode => simpa [AllTable_name, namedIdentifiers] using hrest advs
    | Drop_table cs => simpa [AllTable_name, namedIdentifiers] using hrest advs
    | RuleNode cs => simpa [AllTable_name, namedIdentifiers] using hrest advs
    | Table_name table cs =>
      cases table with
      | none =>
        simpa [AllTable_name, namedIdentifiers, EnterDrop_table.body, GetTable] using hrest advs
      | some table =>
        by_cases hm : format.MatchString (d.NormalizeTSQLIdentifier table) = true
        · simpa [AllTable_name, namedIdentifiers, EnterDrop_table.body, GetTable, hm, offends]
            using hrest advs
        · simp only [Bool.not_eq_true] at hm
          have := hrest (advs ++ [mismatchAdvice d level title format table])
          simpa [AllTable_name, namedIdentifiers, EnterDrop_table.body, GetTable, hm, offends,
            mismatchAdvice] using this

mutual
theorem Walk_eq (d : Deps) (level : Status) (title : String) (format : Regexp) :
    ∀ (tree : Tree) (advs : List Advice),
      Walk d ⟨level, title, format, advs⟩ tree =
        ⟨level, title, format,
          advs ++ (offendingIdentifiers d format tree).map (mismatchAdvice d level title format)⟩
  | .ErrorNode, advs => by simp [Walk, offendingIdentifiers, dropTableIdentifiers]
  | .TerminalNode, advs => by simp [Walk, offendingIdentifiers, dropTableIdentifiers]
  | .Drop_table children, advs => by
    rw [Walk, EnterDrop_table_eq, walkChildren_eq d level title format children]
    simp [offendingIdentifiers, dropTableIdentifiers]
  | .Table_name _ children, advs => by
    rw [Walk, walkChildren_eq d level title format children]
    simp [offendingIdentifiers, dropTableIdentifiers]
  | .RuleNode children, advs => by
    rw [Walk, walkChildren_eq d level title format children]
    simp [offendingIdentifiers, dropTableIdentifiers]
theorem walkChildren_eq (d : Deps) (level : Status) (title : String) (format : Regexp) :
    ∀ (children : List Tree) (advs : List Advice),
      walkChildren d ⟨level, title, format, advs⟩ children =
        ⟨level, title, format,
          advs ++ ((dropTableIdentifiersList children).filter (offends d format)).map
            (mismatchAdvice d level title format)⟩
  | [], advs => by simp [walkChildren, dropTableIdentifiersList]
  | child :: rest, advs => by
    rw [walkChildren, Walk_eq d level title format child,
      walkChildren_eq d level title format rest]
    simp [offendingIdentifiers, dropTableIdentifiersList]
end

/-- With a tree, a level that decodes and a payload that decodes, `Check`
returns the advice of the offending identifiers, or the success entry when
there is none. -/
theorem Check_tree (d : Deps) (tree : Tree) (rule : SQLReviewRule) (level : Status)
    (format : Regexp) (hl : d.NewStatusBySQLReviewRuleLevel rule.Level = .ok level)
    (hf : d.UnmarshalNamingRulePayloadAsRegexp rule.Payload = .ok format) :
    Check d ⟨.tree tree, rule⟩ =
      .ok (if (offendingIdentifiers d format tree).length = 0 then [successAdvice]
        else (offendingIdentifiers d format tree).map
          (mismatchAdvice d level rule.RuleType format)) := by
  simp only [Check, hl, hf, Walk_eq, generateAdvice, List.nil_append, List.length_map]
  split <;> simp_all [successAdvice]

/-! ## The claims -/

/-- C1: `generateAdvice` returns, with no error, a list that is not empty: the
single entry Success / Ok / "OK" / "" when no violation was accumulated, and
exactly the accumulated violations otherwise; hence `Check` never returns an
empty advice list. -/
theorem C1_generateAdvice_nonempty (l : tableDropNamingConventionChecker) (d : Deps)
    (ctx : Context) :
    (generateAdvice l).1 =
        .ok (match l.adviceList with
          | [] => [{ Status := Status.Success, Code := Code.Ok, Title := "OK", Content := "",
                     Line := 0 }]
          | a :: rest => a :: rest) ∧
      (∃ advs, (generateAdvice l).1 = .ok advs ∧ advs ≠ []) ∧
      Check d ctx ≠ .ok [] := by
  have hgen : ∀ l : tableDropNamingConventionChecker,
      ∃ advs, (generateAdvice l).1 = .ok advs ∧ advs ≠ [] := by
    intro l
    cases hl : l.adviceList with
    | nil => exact ⟨[successAdvice], by simp [generateAdvice, hl, successAdvice], by simp⟩
    | cons a rest => exact ⟨a :: rest, by simp [generateAdvice, hl], by simp⟩
  refine ⟨?_, hgen l, ?_⟩
  · cases hl : l.adviceList <;> simp [generateAdvice, hl]
  · intro h
    unfold Check at h
    split at h
    · simp at h
    · split at h
      · simp at h
      · split at h
        · simp at h
        · obtain ⟨advs, h1, h2⟩ := hgen (Walk d _ _)
          rw [h1] at h
          simp only [Except.ok.injEq] at h
          exact h2 h

/-- C2: with a tree, a level that decodes and a pattern that decodes, if the
DROP TABLE nodes name at least one identifier whose normalized name does not
match, `Check` returns one entry per offending identifier and nothing else,
in document order, the i-th entry carrying the line of the i-th offending
identifier. -/
theorem C2_one_advice_per_offending_identifier (d : Deps) (tree : Tree) (rule : SQLReviewRule)
    (level : Status) (format : Regexp)
    (hl : d.NewStatusBySQLReviewRuleLevel rule.Level = .ok level)
    (hf : d.UnmarshalNamingRulePayloadAsRegexp rule.Payload = .ok format)
    (hk : 1 ≤ (offendingIdentifiers d format tree).length) :
    ∃ advs, Check d ⟨.tree tree, rule⟩ = .ok advs ∧
      advs = (offendingIdentifiers d format tree).map
        (mismatchAdvice d level rule.RuleType format) ∧
      advs.length = (offendingIdentifiers d format tree).length ∧
      advs.map Advice.Line = (offendingIdentifiers d format tree).map Id_Context.line ∧
      ∀ a ∈ advs, a.Code = Code.TableDropNamingConventionMismatch := by
  refine ⟨_, Check_tree d tree rule level format hl hf, ?_, ?_, ?_, ?_⟩
  · rw [if_neg (by omega)]
  · rw [if_neg (by omega), List.length_map]
  · rw [if_neg (by omega), List.map_map]
    rfl
  · rw [if_neg (by omega)]
    intro a ha
    obtain ⟨table, -, rfl⟩ := List.mem_map.1 ha
    rfl

/-- Witness of C2 on `DROP TABLE orders, tbl_archive;` at level warning. -/
theorem C2_witness :
    1 ≤ (offendingIdentifiers scenarioDeps tblFormat dropOrdersTree).length ∧
      ∃ advs, Check scenarioDeps ⟨.tree dropOrdersTree, scenarioRule .Warning⟩ = .ok advs ∧
        advs = (offendingIdentifiers scenarioDeps tblFormat dropOrdersTree).map
          (mismatchAdvice scenarioDeps Status.Warn (scenarioRule .Warning).RuleType tblFormat) ∧
        advs.length = (offendingIdentifiers scenarioDeps tblFormat dropOrdersTree).length ∧
        advs.map Advice.Line =
          (offendingIdentifiers scenarioDeps tblFormat dropOrdersTree).map Id_Context.line ∧
        ∀ a ∈ advs, a.Code = Code.TableDropNamingConventionMismatch :=
  ⟨by decide,
    C2_one_advice_per_offending_identifier scenarioDeps dropOrdersTree (scenarioRule .Warning)
      Status.Warn tblFormat rfl rfl (by decide)⟩

/-- C3, as stated, fails: on `DROP TABLE orders, tbl_archive;` with the level
disabled, `Check` under the scenario level decoder returns the decoder's
error, and under no level decoder at all does it return the single success
entry. -/
theorem C3_counterexample :
    Check scenarioDeps ⟨.tree dropOrdersTree, scenarioRule .Disabled⟩ =
        .error "unexpected rule level type" ∧
      ¬ ∃ newStatus : SQLReviewRuleLevel → Except Error Status,
        Check { scenarioDeps with NewStatusBySQLReviewRuleLevel := newStatus }
          ⟨.tree dropOrdersTree, scenarioRule .Disabled⟩ = .ok [successAdvice] := by
  refine ⟨rfl, ?_⟩
  rintro ⟨newStatus, h⟩
  cases hns : newStatus .Disabled with
  | error err => simp [Check, scenarioRule, hns] at h
  | ok level =>
    rw [Check_tree { scenarioDeps with NewStatusBySQLReviewRuleLevel := newStatus }
      dropOrdersTree (scenarioRule .Disabled) level tblFormat hns rfl] at h
    have hoff : offendingIdentifiers
        { scenarioDeps with NewStatusBySQLReviewRuleLevel := newStatus } tblFormat
        dropOrdersTree = [ordersId] := rfl
    rw [hoff] at h
    simp [mismatchAdvice, successAdvice] at h

/-- C3, amended: `Check` has no case for the level disabled. It hands the level
to the level decoder; when the decoder rejects it `Check` returns that error,
and `Check` returns the single success entry exactly when the decoder accepts
the level, the payload decodes and the tree names no offending identifier. -/
theorem C3_disabled_level_goes_through_decoder (d : Deps) (tree : Tree)
    (rule : SQLReviewRule) (hd : rule.Level = SQLReviewRuleLevel.Disabled) :
    (∀ err, d.NewStatusBySQLReviewRuleLevel SQLReviewRuleLevel.Disabled = .error err →
        Check d ⟨.tree tree, rule⟩ = .error err) ∧
      (Check d ⟨.tree tree, rule⟩ = .ok [successAdvice] ↔
        ∃ level format,
          d.NewStatusBySQLReviewRuleLevel SQLReviewRuleLevel.Disabled = .ok level ∧
          d.UnmarshalNamingRulePayloadAsRegexp rule.Payload = .ok format ∧
          offendingIdentifiers d format tree = []) := by
  constructor
  · intro err herr
    simp [Check, hd, herr]
  · constructor
    · intro h
      cases hl : d.NewStatusBySQLReviewRuleLevel SQLReviewRuleLevel.Disabled with
      | error err => simp [Check, hd, hl] at h
      | ok level =>
        cases hf : d.UnmarshalNamingRulePayloadAsRegexp rule.Payload with
        | error err => simp [Check, hd, hl, hf] at h
        | ok format =>
          refine ⟨level, format, rfl, rfl, ?_⟩
          rw [Check_tree d tree rule level format (by rw [hd]; exact hl) hf] at h
          by_contra hne
          rw [if_neg (by simpa using hne)] at h
          cases hoff : offendingIdentifiers d format tree with
          | nil => exact hne hoff
          | cons table rest =>
            rw [hoff] at h
            simp [mismatchAdvice, successAdvice] at h
    · rintro ⟨level, format, hl, hf, hoff⟩
      rw [Check_tree d tree rule level format (by rw [hd]; exact hl) hf, hoff]
      rfl

/-- Witness of the amended C3: the scenario level decoder rejects disabled. -/
theorem C3_witness :
    (scenarioRule .Disabled).Level = SQLReviewRuleLevel.Disabled ∧
      Check scenarioDeps ⟨.tree dropOrdersTree, scenarioRule .Disabled⟩ =
        .error "unexpected rule level type" :=
  ⟨rfl, (C3_disabled_level_goes_through_decoder scenarioDeps dropOrdersTree
    (scenarioRule .Disabled) rfl).1 "unexpected rule level type" rfl⟩

/-- C4: with a tree and a level that decodes, when decoding the payload fails
`Check` returns that error and no advice list, whatever the tree is: the
result does not depend on the tree, which is not walked. -/
theorem C4_payload_error_is_returned (d : Deps) (tree : Tree) (rule : SQLReviewRule)
    (level : Status) (err : Error)
    (hl : d.NewStatusBySQLReviewRuleLevel rule.Level = .ok level)
    (hf : d.UnmarshalNamingRulePayloadAsRegexp rule.Payload = .error err) :
    Check d ⟨.tree tree, rule⟩ = .error err ∧
      ∀ other : Tree, Check d ⟨.tree other, rule⟩ = Check d ⟨.tree tree, rule⟩ := by
  simp [Check, hl, hf]

/-- Witness of C4: a payload the scenario decoder does not accept. -/
theorem C4_witness :
    Check scenarioDeps ⟨.tree dropOrdersTree, ⟨"naming.table.drop", .Warning, "^tbl_("⟩⟩ =
        .error "invalid naming rule payload" ∧
      ∀ other : Tree,
        Check scenarioDeps ⟨.tree other, ⟨"naming.table.drop", .Warning, "^tbl_("⟩⟩ =
          Check scenarioDeps ⟨.tree dropOrdersTree, ⟨"naming.table.drop", .Warning, "^tbl_("⟩⟩ :=
  C4_payload_error_is_returned scenarioDeps dropOrdersTree
    ⟨"naming.table.drop", .Warning, "^tbl_("⟩ Status.Warn "invalid naming rule payload" rfl
    rfl

/-- C5: `Check` walks the tree with a checker that carries the decoded level,
the rule type as title and the decoded pattern, and on such a checker
`EnterDrop_table` appends, for each present identifier whose normalized name
fails the pattern and for no other, the entry with that level as Status, Code
TableDropNamingConventionMismatch, the rule type as Title, the line of the
identifier as Line and the Content built from the normalized name and the
quoted printed pattern. -/
theorem C5_mismatch_advice_fields (d : Deps) (tree : Tree) (rule : SQLReviewRule)
    (level : Status) (format : Regexp)
    (hl : d.NewStatusBySQLReviewRuleLevel rule.Level = .ok level)
    (hf : d.UnmarshalNamingRulePayloadAsRegexp rule.Payload = .ok format)
    (children : List Tree) (advs : List Advice) :
    Check d ⟨.tree tree, rule⟩ =
        (generateAdvice (Walk d ⟨level, rule.RuleType, format, []⟩ tree)).1 ∧
      EnterDrop_table d ⟨level, rule.RuleType, format, advs⟩ children =
        ⟨level, rule.RuleType, format,
          advs ++ ((namedIdentifiers children).filter fun table =>
              !format.MatchString (d.NormalizeTSQLIdentifier table)).map fun table =>
            { Status := level
              Code := Code.TableDropNamingConventionMismatch
              Title := rule.RuleType
              Content := "[" ++ d.NormalizeTSQLIdentifier table ++
                "] mismatches drop table naming convention, naming format should be " ++
                d.quote format.expr
              Line := table.line }⟩ := by
  refine ⟨by simp [Check, hl, hf], ?_⟩
  rw [EnterDrop_table_eq]
  rfl

/-- Witness of C5: the entry appended for `orders` in the scenario. -/
theorem C5_witness :
    EnterDrop_table scenarioDeps ⟨Status.Warn, "naming.table.drop", tblFormat, []⟩
        [.Table_name (some ordersId) [], .Table_name (some tblArchiveId) []] =
      ⟨Status.Warn, "naming.table.drop", tblFormat,
        [{ Status := Status.Warn
           Code := Code.TableDropNamingConventionMismatch
           Title := "naming.table.drop"
           Content :=
             "[orders] mismatches drop table naming convention, naming format should be \"^tbl_\""
           Line := 1 }]⟩ :=
  (C5_mismatch_advice_fields scenarioDeps dropOrdersTree (scenarioRule .Warning) Status.Warn
    tblFormat rfl rfl [.Table_name (some ordersId) [], .Table_name (some tblArchiveId) []] []).2

/-- C6, as stated, fails: on `DROP TABLE orders, tbl_archive;` with the `tbl_`
pattern at level warning `Check` does not return two entries. -/
theorem C6_counterexample :
    ¬ ∃ advs, Check scenarioDeps ⟨.tree dropOrdersTree, scenarioRule .Warning⟩ = .ok advs ∧
      advs.length = 2 := by
  rintro ⟨advs, h, hlen⟩
  have hcheck : Check scenarioDeps ⟨.tree dropOrdersTree, scenarioRule .Warning⟩ =
      .ok [mismatchAdvice scenarioDeps Status.Warn "naming.table.drop" tblFormat ordersId] := rfl
  rw [hcheck] at h
  simp only [Except.ok.injEq] at h
  subst h
  simp at hlen

/-- C6, amended: on `DROP TABLE orders, tbl_archive;`, at a level that decodes
to warning and with a pattern that `orders` fails and `tbl_archive` matches,
`Check` returns exactly one entry, the warning for `orders` at its line; there
is no success entry and no entry for `tbl_archive`. -/
theorem C6_drop_orders_one_warning (d : Deps) (rule : SQLReviewRule) (format : Regexp)
    (hl : d.NewStatusBySQLReviewRuleLevel rule.Level = .ok Status.Warn)
    (hf : d.UnmarshalNamingRulePayloadAsRegexp rule.Payload = .ok format)
    (horders : format.MatchString (d.NormalizeTSQLIdentifier ordersId) = false)
    (harchive : format.MatchString (d.NormalizeTSQLIdentifier tblArchiveId) = true) :
    Check d ⟨.tree dropOrdersTree, rule⟩ =
      .ok [{ Status := Status.Warn
             Code := Code.TableDropNamingConventionMismatch
             Title := rule.RuleType
             Content := "[" ++ d.NormalizeTSQLIdentifier ordersId ++
               "] mismatches drop table naming convention, naming format should be " ++
               d.quote format.expr
             Line := ordersId.line }] := by
  have hoff : offendingIdentifiers d format dropOrdersTree = [ordersId] := by
    simp [offendingIdentifiers, dropOrdersTree, dropTableIdentifiers, dropTableIdentifiersList,
      namedIdentifiers, offends, horders, harchive]
  rw [Check_tree d dropOrdersTree rule Status.Warn format hl hf, hoff]
  rfl

/-- Witness of the amended C6 in the scenario. -/
theorem C6_witness :
    Check scenarioDeps ⟨.tree dropOrdersTree, scenarioRule .Warning⟩ =
      .ok [{ Status := Status.Warn
             Code := Code.TableDropNamingConventionMismatch
             Title := "naming.table.drop"
             Content :=
               "[orders] mismatches drop table naming convention, naming format should be \"^tbl_\""
             Line := 1 }] :=
  C6_drop_orders_one_warning scenarioDeps (scenarioRule .Warning) tblFormat rfl rfl
    (by decide) (by decide)

/-- C7: when the AST is not a parse tree `Check` returns the error "failed to
convert to Tree" and no advice list, whatever the rule and the external
functions are. -/
theorem C7_ast_mismatch_is_error (d : Deps) (rule : SQLReviewRule) :
    Check d ⟨AST.other, rule⟩ = .error "failed to convert to Tree" ∧
      ∀ advs, Check d ⟨AST.other, rule⟩ ≠ .ok advs := by
  simp [Check]

/-- C9: in `EnterDrop_table` a table name whose identifier is absent is
skipped, whatever the pattern says about the empty string: the loop body
leaves the checker as it is, and the node gives the same result with and
without that table name. A DROP TABLE node that names no identifier leaves
the checker, and so the accumulated advice list, unchanged. -/
theorem C9_absent_identifier_skipped (d : Deps) (l : tableDropNamingConventionChecker)
    (before after children : List Tree) :
    EnterDrop_table.body d l (.Table_name none children) = l ∧
      EnterDrop_table d l (before ++ [.Table_name none children] ++ after) =
        EnterDrop_table d l (before ++ after) ∧
      (∀ ctx, namedIdentifiers ctx = [] → EnterDrop_table d l ctx = l) := by
  refine ⟨rfl, ?_, ?_⟩
  · simp [EnterDrop_table, AllTable_name, List.filter_append, List.filter_cons,
      List.foldl_append, EnterDrop_table.body, GetTable]
  · intro ctx hctx
    obtain ⟨level, title, format, advs⟩ := l
    rw [EnterDrop_table_eq, hctx]
    simp

/-- Witness of C9: the pattern rejects the empty string, and a DROP TABLE node
whose only table name has no identifier leaves the checker unchanged. -/
theorem C9_witness :
    tblFormat.MatchString "" = false ∧
      EnterDrop_table scenarioDeps ⟨Status.Warn, "naming.table.drop", tblFormat, []⟩
          [.TerminalNode, .TerminalNode, .Table_name none []] =
        ⟨Status.Warn, "naming.table.drop", tblFormat, []⟩ :=
  ⟨by decide,
    (C9_absent_identifier_skipped scenarioDeps ⟨Status.Warn, "naming.table.drop", tblFormat, []⟩
      [] [] []).2.2 [.TerminalNode, .TerminalNode, .Table_name none []] rfl⟩


theorem valueTuple_eq (a b c e f : Nat) :
    valueTuple a b c e f = placeholderTuple [a, b, c, e, f] := by
  have h1 : ("($" : String) = "(" ++ "$" := by decide
  have h2 : (",$" : String) = "," ++ "$" := by decide
  simp only [valueTuple, placeholderTuple, String.intercalate, String.intercalate.go,
    List.map, h1, h2, String.append_assoc]

theorem CreateStageV2.loop_eq (creatorID : Int) :
    ∀ (stages : List StageMessage) (i : Nat) (valueStr : List String) (values : List Value),
      CreateStageV2.loop creatorID i stages (valueStr, values) =
        (valueStr ++ (List.range' i stages.length).map fun j =>
            valueTuple (j * count + 1) (j * count + 2) (j * count + 3) (j * count + 4)
              (j * count + 5),
         values ++ stages.flatMap fun create =>
            [Value.int creatorID, Value.int creatorID, Value.int create.PipelineID,
              Value.int create.EnvironmentID, Value.string create.Name]) := by
  intro stages
  induction stages with
  | nil => intro i valueStr values; simp [CreateStageV2.loop]
  | cons create rest ih =>
    intro i valueStr values
    rw [CreateStageV2.loop, ih]
    simp [List.range'_succ]

theorem flatMap_five_getElem? {α β : Type} (f : α → List β) (hf : ∀ a, (f a).length = 5) :
    ∀ (xs : List α) (i : Nat) (a : α), xs[i]? = some a →
      ∀ k, k < 5 → (xs.flatMap f)[5 * i + k]? = (f a)[k]? := by
  intro xs
  induction xs with
  | nil => intro i a h; simp at h
  | cons x rest ih =>
    intro i a h k hk
    cases i with
    | zero =>
      simp only [List.getElem?_cons_zero, Option.some.injEq] at h
      subst h
      rw [List.flatMap_cons, List.getElem?_append_left (by rw [hf]; omega)]
      simp
    | succ j =>
      simp only [List.getElem?_cons_succ] at h
      rw [List.flatMap_cons, List.getElem?_append_right (by rw [hf]; omega), hf]
      have : 5 * (j + 1) + k - 5 = 5 * j + k := by omega
      rw [this]
      exact ih j a h k hk

theorem flatMap_five_length {α β : Type} (f : α → List β) (hf : ∀ a, (f a).length = 5) :
    ∀ xs : List α, (xs.flatMap f).length = 5 * xs.length := by
  intro xs
  induction xs with
  | nil => rfl
  | cons x rest ih =>
    rw [List.flatMap_cons, List.length_append, ih, hf, List.length_cons]
    omega

theorem flatMap_placeholderNumbers (n : Nat) :
    (List.range n).flatMap placeholderNumbers = List.range' 1 (5 * n) := by
  induction n with
  | zero => rfl
  | succ n ih =>
    rw [List.range_succ, List.flatMap_append, ih]
    have h : 5 * (n + 1) = 5 + 5 * n := by omega
    rw [h, ← List.range'_append 1 (5 * n) 5 1]
    simp [placeholderNumbers, List.range'_succ]
    omega

/-- C10: for `n` stages the query text is, letter for letter, the INSERT with
the column list creator_id, updater_id, pipeline_id, environment_id, name,
then the `n` value tuples joined by commas, then the RETURNING tail; the i-th
tuple is `($5i+1,$5i+2,$5i+3,$5i+4,$5i+5)`; there are `5n` arguments and those
at 0-based positions `5i .. 5i+4`, which the placeholders `$5i+1 .. $5i+5`
refer to, are creatorID, creatorID and the PipelineID, EnvironmentID and Name
of stage `i`; the placeholder numbers of all tuples, in order, are `1 .. 5n`,
each once; with no stage the VALUES clause is empty; and the k-th column named
in the INSERT receives, for stage `i`, the argument at position `5i+k`, which
is the value meant for that column. -/
theorem C10_insert_placeholders (stagesCreate : List StageMessage) (creatorID : Int) :
    (CreateStageV2.query stagesCreate creatorID).1 =
        "\n    WITH inserted AS (\n\t  \tINSERT INTO stage (\n\t  \t\tcreator_id,\n\t  \t\tupdater_id,\n\t  \t\tpipeline_id,\n\t  \t\tenvironment_id,\n\t  \t\tname\n\t  \t) VALUES " ++
          ",".intercalate (CreateStageV2.valueStr stagesCreate creatorID) ++
          "\n\t  \tRETURNING id, pipeline_id, environment_id, name\n    ) SELECT * FROM inserted ORDER BY id ASC\n    " ∧
      (CreateStageV2.valueStr stagesCreate creatorID).length = stagesCreate.length ∧
      (∀ i, i < stagesCreate.length →
        (CreateStageV2.valueStr stagesCreate creatorID)[i]? =
          some ("($" ++ toString (5 * i + 1) ++ ",$" ++ toString (5 * i + 2) ++ ",$" ++
            toString (5 * i + 3) ++ ",$" ++ toString (5 * i + 4) ++ ",$" ++
            toString (5 * i + 5) ++ ")")) ∧
      (CreateStageV2.query stagesCreate creatorID).2.length = 5 * stagesCreate.length ∧
      (∀ i create, stagesCreate[i]? = some create →
        (CreateStageV2.query stagesCreate creatorID).2[5 * i]? = some (Value.int creatorID) ∧
        (CreateStageV2.query stagesCreate creatorID).2[5 * i + 1]? =
          some (Value.int creatorID) ∧
        (CreateStageV2.query stagesCreate creatorID).2[5 * i + 2]? =
          some (Value.int create.PipelineID) ∧
        (CreateStageV2.query stagesCreate creatorID).2[5 * i + 3]? =
          some (Value.int create.EnvironmentID) ∧
        (CreateStageV2.query stagesCreate creatorID).2[5 * i + 4]? =
          some (Value.string create.Name)) ∧
      CreateStageV2.valueStr stagesCreate creatorID =
        (List.range stagesCreate.length).map (fun i => placeholderTuple (placeholderNumbers i)) ∧
      (List.range stagesCreate.length).flatMap placeholderNumbers =
        List.range' 1 (5 * stagesCreate.length) ∧
      (stagesCreate = [] →
        (CreateStageV2.query stagesCreate creatorID).1 =
          "\n    WITH inserted AS (\n\t  \tINSERT INTO stage (\n\t  \t\tcreator_id,\n\t  \t\tupdater_id,\n\t  \t\tpipeline_id,\n\t  \t\tenvironment_id,\n\t  \t\tname\n\t  \t) VALUES " ++
            "\n\t  \tRETURNING id, pipeline_id, environment_id, name\n    ) SELECT * FROM inserted ORDER BY id ASC\n    ") ∧
      (CreateStageV2.query stagesCreate creatorID).1 =
        "\n    WITH inserted AS (\n\t  \tINSERT INTO stage (\n\t  \t\t" ++
          ",\n\t  \t\t".intercalate
            ["creator_id", "updater_id", "pipeline_id", "environment_id", "name"] ++
          "\n\t  \t) VALUES " ++
          ",".intercalate (CreateStageV2.valueStr stagesCreate creatorID) ++
          "\n\t  \tRETURNING id, pipeline_id, environment_id, name\n    ) SELECT * FROM inserted ORDER BY id ASC\n    " ∧
      (∀ i create k column, stagesCreate[i]? = some create →
        ["creator_id", "updater_id", "pipeline_id", "environment_id", "name"][k]? =
          some column →
        (CreateStageV2.valueStr stagesCreate creatorID)[i]? =
            some (placeholderTuple
              [5 * i + 0 + 1, 5 * i + 1 + 1, 5 * i + 2 + 1, 5 * i + 3 + 1, 5 * i + 4 + 1]) ∧
          (CreateStageV2.query stagesCreate creatorID).2[5 * i + k]? =
            columnValue creatorID create column) := by
  have hv : CreateStageV2.valueStr stagesCreate creatorID =
      (List.range stagesCreate.length).map fun j =>
        valueTuple (j * count + 1) (j * count + 2) (j * count + 3) (j * count + 4)
          (j * count + 5) := by
    simp [CreateStageV2.valueStr, CreateStageV2.loop_eq, List.range_eq_range']
  have ha : (CreateStageV2.query stagesCreate creatorID).2 =
      stagesCreate.flatMap fun create =>
        [Value.int creatorID, Value.int creatorID, Value.int create.PipelineID,
          Value.int create.EnvironmentID, Value.string create.Name] := by
    simp [CreateStageV2.query, CreateStageV2.loop_eq]
  have hhead : queryHead =
      "\n    WITH inserted AS (\n\t  \tINSERT INTO stage (\n\t  \t\t" ++
        ",\n\t  \t\t".intercalate
          ["creator_id", "updater_id", "pipeline_id", "environment_id", "name"] ++
        "\n\t  \t) VALUES " := by decide
  have hp : CreateStageV2.valueStr stagesCreate creatorID =
      (List.range stagesCreate.length).map
        (fun i => placeholderTuple (placeholderNumbers i)) := by
    rw [hv]
    apply List.map_congr_left
    intro i _
    rw [valueTuple_eq]
    simp [placeholderNumbers, count, Nat.mul_comm]
  refine ⟨rfl, ?_, ?_, ?_, ?_, hp, flatMap_placeholderNumbers _, ?_, ?_, ?_⟩
  · rw [hv]; simp
  · intro i hi
    rw [hv]
    simp [List.getElem?_map, List.getElem?_range hi, valueTuple, count, Nat.mul_comm]
  · rw [ha]
    exact flatMap_five_length
      (fun create : StageMessage =>
        [Value.int creatorID, Value.int creatorID, Value.int create.PipelineID,
          Value.int create.EnvironmentID, Value.string create.Name])
      (fun _ => rfl) stagesCreate
  · intro i create hi
    rw [ha]
    have key := flatMap_five_getElem?
      (fun create : StageMessage =>
        [Value.int creatorID, Value.int creatorID, Value.int create.PipelineID,
          Value.int create.EnvironmentID, Value.string create.Name])
      (fun _ => rfl) stagesCreate i create hi
    exact ⟨key 0 (by omega), key 1 (by omega), key 2 (by omega), key 3 (by omega),
      key 4 (by omega)⟩
  · intro h
    subst h
    rfl
  · rw [← hhead]
    rfl
  · intro i create k column hi hk
    have hlt : i < stagesCreate.length := (List.getElem?_eq_some_iff.1 hi).1
    refine ⟨?_, ?_⟩
    · rw [hp]
      simp [List.getElem?_map, List.getElem?_range hlt, placeholderNumbers]
    · rw [ha]
      have key := flatMap_five_getElem?
        (fun create : StageMessage =>
          [Value.int creatorID, Value.int creatorID, Value.int create.PipelineID,
            Value.int create.EnvironmentID, Value.string create.Name])
        (fun _ => rfl) stagesCreate i create hi
      rcases k with _ | _ | _ | _ | _ | k
      · simp only [List.getElem?_cons_zero, Option.some.injEq] at hk
        subst hk
        exact key 0 (by omega)
      · simp only [List.getElem?_cons_succ, List.getElem?_cons_zero, Option.some.injEq] at hk
        subst hk
        exact key 1 (by omega)
      · simp only [List.getElem?_cons_succ, List.getElem?_cons_zero, Option.some.injEq] at hk
        subst hk
        exact key 2 (by omega)
      · simp only [List.getElem?_cons_succ, List.getElem?_cons_zero, Option.some.injEq] at hk
        subst hk
        exact key 3 (by omega)
      · simp only [List.getElem?_cons_succ, List.getElem?_cons_zero, Option.some.injEq] at hk
        subst hk
        exact key 4 (by omega)
      · simp at hk

/-- Witness of C10 on two stages created by user 7. -/
theorem C10_witness :
    CreateStageV2.valueStr [⟨"dev", 11, 3, 0⟩, ⟨"prod", 12, 3, 0⟩] 7 =
        ["($1,$2,$3,$4,$5)", "($6,$7,$8,$9,$10)"] ∧
      (CreateStageV2.query [⟨"dev", 11, 3, 0⟩, ⟨"prod", 12, 3, 0⟩] 7).2[5 * 1 + 4]? =
        some (Value.string "prod") ∧
      (CreateStageV2.query [⟨"dev", 11, 3, 0⟩, ⟨"prod", 12, 3, 0⟩] 7).2[5 * 1 + 3]? =
        columnValue 7 ⟨"prod", 12, 3, 0⟩ "environment_id" :=
  ⟨by decide,
    ((C10_insert_placeholders [⟨"dev", 11, 3, 0⟩, ⟨"prod", 12, 3, 0⟩] 7).2.2.2.2.1 1
      ⟨"prod", 12, 3, 0⟩ rfl).2.2.2.2,
    ((C10_insert_placeholders [⟨"dev", 11, 3, 0⟩, ⟨"prod", 12, 3, 0⟩] 7).2.2.2.2.2.2.2.2.2 1
      ⟨"prod", 12, 3, 0⟩ 3 "environment_id" rfl rfl).2⟩

theorem excelLetter_toNat (r : Nat) (hr : r < 26) : (excelLetter r).toNat = 65 + r := by
  interval_cases r <;> rfl

theorem excelLetterValue_excelLetter (r : Nat) (hr : r < 26) :
    excelLetterValue (excelLetter r) = r + 1 := by
  rw [excelLetterValue, excelLetter_toNat r hr]
  omega

theorem excelNumeralValue_excelColumnLetters (index : Nat) :
    excelNumeralValue (excelColumnLetters index) = index + 1 := by
  induction index using Nat.strong_induction_on with
  | _ index ih =>
    rw [excelColumnLetters]
    split
    · rename_i h
      simp [excelNumeralValue, excelLetterValue_excelLetter index h]
    · have hrec := ih (index / 26 - 1) (by omega)
      unfold excelNumeralValue at hrec ⊢
      rw [List.foldl_append, hrec]
      simp only [List.foldl_cons, List.foldl_nil]
      rw [excelLetterValue_excelLetter (index % 26) (Nat.mod_lt _ (by omega))]
      omega

theorem excelColumnLetters_injective (a b : Nat)
    (h : excelColumnLetters a = excelColumnLetters b) : a = b := by
  have ha := excelNumeralValue_excelColumnLetters a
  have hb := excelNumeralValue_excelColumnLetters b
  rw [h] at ha
  omega

theorem excelColumnLetters_letters (index : Nat) :
    ∀ c ∈ excelColumnLetters index, 65 ≤ c.toNat ∧ c.toNat ≤ 90 := by
  induction index using Nat.strong_induction_on with
  | _ index ih =>
    rw [excelColumnLetters]
    split
    · rename_i h
      intro c hc
      simp only [List.mem_singleton] at hc
      subst hc
      rw [excelLetter_toNat index h]
      omega
    · intro c hc
      rcases List.mem_append.1 hc with hc | hc
      · exact ih (index / 26 - 1) (by omega) c hc
      · simp only [List.mem_singleton] at hc
        subst hc
        have := Nat.mod_lt index (show 0 < 26 by omega)
        rw [excelLetter_toNat (index % 26) this]
        omega

theorem excelColumnLetters_length (index : Nat) (h : index < excelMaxColumn) :
    1 ≤ (excelColumnLetters index).length ∧ (excelColumnLetters index).length ≤ 3 := by
  unfold excelMaxColumn at h
  rw [excelColumnLetters]
  split
  · simp
  · rw [excelColumnLetters]
    split
    · simp
    · rw [excelColumnLetters]
      split
      · simp
      · omega

/-- C8: for an index below `excelMaxColumn` the modelled `getExcelColumnName`
returns without error a name that reads, as a bijective base-26 numeral over
`A..Z`, as `index + 1`; the name has one to three letters, and no other index
gives it. The indices of the test give `A`, `D`, `Z`, `AA`, `AB`, and
`excelMaxColumn - 1` gives `ZZZ`. -/
theorem C8_getExcelColumnName (index : Nat) (h : index < excelMaxColumn) :
    (∃ name, getExcelColumnName index = .ok name ∧
        excelNumeralValue name.toList = index + 1 ∧
        (∀ c ∈ name.toList, 65 ≤ c.toNat ∧ c.toNat ≤ 90) ∧
        1 ≤ name.length ∧ name.length ≤ 3 ∧
        ∀ other, other < excelMaxColumn → getExcelColumnName other = .ok name →
          other = index) ∧
      getExcelColumnName 0 = .ok "A" ∧
      getExcelColumnName 3 = .ok "D" ∧
      getExcelColumnName 25 = .ok "Z" ∧
      getExcelColumnName 26 = .ok "AA" ∧
      getExcelColumnName 27 = .ok "AB" ∧
      getExcelColumnName (excelMaxColumn - 1) = .ok "ZZZ" := by
  refine ⟨⟨String.mk (excelColumnLetters index), ?_, ?_, ?_, ?_, ?_, ?_⟩, ?_, ?_, ?_, ?_, ?_, ?_⟩
  · simp [getExcelColumnName, h]
  · exact excelNumeralValue_excelColumnLetters index
  · exact excelColumnLetters_letters index
  · exact (excelColumnLetters_length index h).1
  · exact (excelColumnLetters_length index h).2
  · intro other ho hname
    simp only [getExcelColumnName, ge_iff_le, Nat.not_le.2 ho, if_false,
      Except.ok.injEq] at hname
    exact excelColumnLetters_injective other index (congrArg String.data hname)
  all_goals simp [getExcelColumnName, excelColumnLetters, excelLetter, excelMaxColumn]

/-- Witness of C8 at index 701, the last name of two letters. -/
theorem C8_witness :
    701 < excelMaxColumn ∧ getExcelColumnName 701 = .ok "ZZ" ∧
      ∃ name, getExcelColumnName 701 = .ok name ∧
        excelNumeralValue name.toList = 701 + 1 ∧
        (∀ c ∈ name.toList, 65 ≤ c.toNat ∧ c.toNat ≤ 90) ∧
        1 ≤ name.length ∧ name.length ≤ 3 ∧
        ∀ other, other < excelMaxColumn → getExcelColumnName other = .ok name →
          other = 701 :=
  ⟨by decide, by simp [getExcelColumnName, excelColumnLetters, excelLetter, excelMaxColumn],
    (C8_getExcelColumnName 701 (by decide)).1⟩

end Bytebase
